import Mathlib

/-!
# Verification of `calculate_grades.py`

Shallow embedding of the grade-computation core of `calculate_grades.py`
(late-penalty calculation, per-category aggregation with drop-lowest,
weighted total accumulation, letter-grade resolution, warning collection),
together with theorems settling the specification claims.

Modelling conventions:
* Python floats are modelled as rationals (`ℚ`); all score arithmetic in the
  source is plain arithmetic on such numbers.
* A parsed `datetime` is modelled as an integer number of seconds; the Python
  `timedelta.days` attribute is floor division of the elapsed seconds by
  86400, i.e. `Int.fdiv _ 86400`.  An absent or empty timestamp string (falsy
  in Python) is `none`.
* Python `dict`s keep insertion order, so score maps, due-date maps and the
  grade scale are association lists in insertion order.
* `list.sort(key=..., reverse=True)` is a stable descending sort; it is
  modelled by `List.insertionSort` with the "may come before" relation
  `fun x y => key y ≤ key x`, which is stable in exactly the same way.
* The `ZeroDivisionError` reachable in `process_assignment_category` and the
  `ValueError` raised by `calculate_grade` are modelled by `Option`/`Except`
  error results; console output is dropped except for the warning signals,
  which are returned as data.
-/

namespace CalculateGrades

/-- The `PenaltyResult` dataclass (source lines 11-14). -/
structure PenaltyResult where
  days_late : Int
  penalty : ℚ
deriving DecidableEq

/-- The `AssignmentScore` dataclass (source lines 17-22). -/
structure AssignmentScore where
  name : String
  original_score : ℚ
  adjusted_score : ℚ
  days_late : Int
deriving DecidableEq

/-- Seconds in a day: the divisor behind `timedelta.days`. -/
def secondsPerDay : Int := 86400

/-- Python `calculate_late_penalty` (source lines 25-41).  Timestamps arrive already
parsed (`none` models an absent/empty string, the falsy check on line 29).
The `Bool` component records whether the missing-date warning was printed. -/
def calculate_late_penalty (submitted_at due_date : Option Int)
    (rate max_penalty : ℚ) : PenaltyResult × Bool :=
  match submitted_at, due_date with
  | some submitted, some due =>
    let days_late : Int := max 0 ((submitted - due).fdiv secondsPerDay)
    (⟨days_late, min max_penalty (rate * (days_late : ℚ))⟩, false)
  | _, _ => (⟨0, 0⟩, true)

/-- One submission `{score, submitted_at}` (values of the category score
dicts, and of `grades["scores"]["project"]`). -/
structure Submission where
  score : ℚ
  submitted_at : Option Int
deriving DecidableEq

/-- The ordering used by `assignments.sort(key=lambda x: x.adjusted_score,
reverse=True)` on line 70: `x` may be placed before `y` iff
`y.adjusted_score ≤ x.adjusted_score`. -/
def adjGE (x y : AssignmentScore) : Prop :=
  y.adjusted_score ≤ x.adjusted_score

instance : DecidableRel adjGE := fun x y =>
  inferInstanceAs (Decidable (y.adjusted_score ≤ x.adjusted_score))

instance : IsTotal AssignmentScore adjGE :=
  ⟨fun x y => le_total y.adjusted_score x.adjusted_score⟩

instance : IsTrans AssignmentScore adjGE :=
  ⟨fun _ _ _ h1 h2 => le_trans h2 h1⟩

/-- Python `list.sort` is stable; so is `List.insertionSort`, which therefore
models line 70 exactly (descending adjusted score, ties in input order). -/
def sortAssignments (l : List AssignmentScore) : List AssignmentScore :=
  l.insertionSort adjGE

/-- The per-assignment loop of `process_assignment_category`
(source lines 54-67): build an `AssignmentScore` for every entry of the
category score map.  `due_dates.get(name, "")` is `List.lookup`, whose `none`
result feeds the missing-date path of `calculate_late_penalty`. -/
def make_assignments (scores : List (String × Submission))
    (due_dates : List (String × Int)) (rate max_penalty : ℚ) :
    List AssignmentScore :=
  scores.map fun p =>
    let pen := (calculate_late_penalty p.2.submitted_at (due_dates.lookup p.1)
      rate max_penalty).1
    ⟨p.1, p.2.score, p.2.score * (1 - pen.penalty), pen.days_late⟩

/-- Python `process_assignment_category` (source lines 44-91), without the Rich table
(pure rendering).  Returns the weighted score and the post-drop rows.
`assignments[:-drops]` for positive `drops` is `take (length - drops)`.
The result is `none` exactly when the division on line 73 would raise
`ZeroDivisionError` (no assignments remain). -/
def process_assignment_category (scores : List (String × Submission))
    (due_dates : List (String × Int)) (weight rate max_penalty : ℚ)
    (drops : Nat) : Option (ℚ × List AssignmentScore) :=
  let assignments := make_assignments scores due_dates rate max_penalty
  let assignments :=
    if 0 < drops then
      (sortAssignments assignments).take (assignments.length - drops)
    else assignments
  if assignments.length = 0 then none
  else
    let avg_score :=
      (assignments.map fun a => a.adjusted_score).sum / (assignments.length : ℚ)
    some (avg_score * weight, assignments)

/-- The `scores` section of a student record: optional project entry and the
three category score maps (an absent category key and an empty dict are both
falsy in Python, hence both are the empty list / `none`). -/
structure Scores where
  project : Option Submission
  quizzes : List (String × Submission)
  homework : List (String × Submission)
  reflections : List (String × Submission)
deriving DecidableEq

/-- A student record; `scores = none` models a record whose `"scores"` key is
absent.  The `name`/`id` fields are rendering-only and omitted. -/
structure Grades where
  scores : Option Scores
deriving DecidableEq

/-- The `policy["late_penalty"]` record. -/
structure LatePenalty where
  rate : ℚ
  max_penalty : ℚ
deriving DecidableEq

/-- The grading policy.  Category weights are optional (`.get`); a weight that
is present but `0.0` is falsy in the stage guards.  `due_dates_project` models
`policy["due_dates"].get("project", "")`.  `quiz_drops` models
`policy.get("quiz_drops", 0)`.  `grade_scale = []` models a missing or empty
(falsy) `grade_scale`. -/
structure Policy where
  weights_project : Option ℚ
  weights_quizzes : Option ℚ
  weights_homework : Option ℚ
  weights_reflections : Option ℚ
  due_dates_project : Option Int
  due_dates_quizzes : List (String × Int)
  due_dates_homework : List (String × Int)
  due_dates_reflections : List (String × Int)
  late_penalty : LatePenalty
  quiz_drops : Nat
  grade_scale : List (String × ℚ)
deriving DecidableEq

/-- The data computed by `calculate_grade`: final score, letter grade and the
`warning_messages` accumulator. -/
structure Report where
  total_score : ℚ
  letter_grade : String
  warnings : List String
deriving DecidableEq

/-- The project branch of `calculate_grade` (source lines 109-130): the amount
added to `total_score` plus the warning appended when the stage is skipped.
The guard is Python truthiness of `grades["scores"].get("project")` and
`policy["weights"].get("project")`; a present but zero weight is falsy. -/
def project_stage (scores : Scores) (policy : Policy) : ℚ × Option String :=
  match scores.project, policy.weights_project with
  | some proj, some w =>
    if w = 0 then (0, some "Missing project data")
    else
      let pen := (calculate_late_penalty proj.submitted_at
        policy.due_dates_project policy.late_penalty.rate
        policy.late_penalty.max_penalty).1
      (proj.score * (1 - pen.penalty) * w, none)
  | _, _ => (0, some "Missing project data")

/-- One category branch of `calculate_grade` (source lines 132-185): guard on
truthiness of the score map and the weight, then run
`process_assignment_category`; `Except.error` propagates the unguarded
`ZeroDivisionError`. -/
def category_stage (warn : String) (cat_scores : List (String × Submission))
    (due_dates : List (String × Int)) (weight : Option ℚ) (lp : LatePenalty)
    (drops : Nat) : Except String (ℚ × Option String) :=
  match weight with
  | some w =>
    if cat_scores = [] ∨ w = 0 then Except.ok (0, some warn)
    else
      match process_assignment_category cat_scores due_dates w lp.rate
          lp.max_penalty drops with
      | some r => Except.ok (r.1, none)
      | none => Except.error "division by zero"
  | none => Except.ok (0, some warn)

/-- The ordering used by
`sorted(policy["grade_scale"].items(), key=lambda x: x[1], reverse=True)`
on lines 190-192. -/
def scaleGE (x y : String × ℚ) : Prop := y.2 ≤ x.2

instance : DecidableRel scaleGE := fun x y =>
  inferInstanceAs (Decidable (y.2 ≤ x.2))

instance : IsTotal (String × ℚ) scaleGE := ⟨fun x y => le_total y.2 x.2⟩

instance : IsTrans (String × ℚ) scaleGE := ⟨fun _ _ _ h1 h2 => le_trans h2 h1⟩

/-- Stable descending sort of the grade scale by threshold (lines 190-192). -/
def sortScale (gs : List (String × ℚ)) : List (String × ℚ) :=
  gs.insertionSort scaleGE

/-- The letter-grade loop of `calculate_grade` (source lines 188-195): start
from `"F"`, and if the grade scale is truthy take the first entry, in
descending threshold order, whose threshold is at most the total score. -/
def resolve_letter_grade (grade_scale : List (String × ℚ))
    (total_score : ℚ) : String :=
  if grade_scale = [] then "F"
  else
    match (sortScale grade_scale).find? (fun p => decide (p.2 ≤ total_score)) with
    | some p => p.1
    | none => "F"

/-- Rank of the resolved letter grade: the position at which the loop of
lines 190-195 stops in the descending-sorted scale (`length` when it falls
through and keeps `"F"`).  Smaller rank means higher grade. -/
def grade_rank (grade_scale : List (String × ℚ)) (total_score : ℚ) : Nat :=
  (sortScale grade_scale).findIdx (fun p => decide (p.2 ≤ total_score))

/-- The letter sitting at a given rank of the descending-sorted scale
(`"F"` past the end, i.e. for the fall-through rank). -/
def letter_at (grade_scale : List (String × ℚ)) (i : Nat) : String :=
  match (sortScale grade_scale)[i]? with
  | some p => p.1
  | none => "F"

/-- Python `calculate_grade` (source lines 94-216) as a function to a report.
`Except.error "Invalid grades data"` models the `ValueError` on line 97
(raised when `grades` is falsy or has no `"scores"` key), and
`Except.error "division by zero"` the `ZeroDivisionError` reachable through
`process_assignment_category`.  The report carries `total_score`, the letter
grade and the `warning_messages` list in order of appending. -/
def calculate_grade (grades : Option Grades) (policy : Policy) :
    Except String Report :=
  match grades with
  | none => Except.error "Invalid grades data"
  | some g =>
    match g.scores with
    | none => Except.error "Invalid grades data"
    | some scores =>
      let proj := project_stage scores policy
      match category_stage "Missing quizzes data" scores.quizzes
          policy.due_dates_quizzes policy.weights_quizzes policy.late_penalty
          policy.quiz_drops with
      | Except.error e => Except.error e
      | Except.ok quiz =>
        match category_stage "Missing homework data" scores.homework
            policy.due_dates_homework policy.weights_homework
            policy.late_penalty 0 with
        | Except.error e => Except.error e
        | Except.ok hw =>
          match category_stage "Missing reflections data" scores.reflections
              policy.due_dates_reflections policy.weights_reflections
              policy.late_penalty 0 with
          | Except.error e => Except.error e
          | Except.ok refls =>
            let total_score := proj.1 + quiz.1 + hw.1 + refls.1
            Except.ok
              { total_score := total_score
                letter_grade := resolve_letter_grade policy.grade_scale total_score
                warnings := proj.2.toList ++ quiz.2.toList ++ hw.2.toList
                  ++ refls.2.toList }

/-!
## Helper lemmas
-/

/-- In a scale sorted by descending threshold, `find?` of "threshold at most
total" returns a qualifying entry of maximal threshold. -/
theorem find?_sorted_scale_max (total : ℚ) :
    ∀ l : List (String × ℚ), List.Sorted scaleGE l →
      ∀ p, l.find? (fun x => decide (x.2 ≤ total)) = some p →
        p.2 ≤ total ∧ ∀ q ∈ l, q.2 ≤ total → q.2 ≤ p.2 := by
  intro l
  induction l with
  | nil => intro _ p hp; simp at hp
  | cons a l ih =>
    intro hs p hp
    by_cases ha : a.2 ≤ total
    · rw [List.find?_cons_of_pos _ (by simpa using ha)] at hp
      cases hp
      refine ⟨ha, fun q hq hqle => ?_⟩
      rcases List.mem_cons.1 hq with rfl | hq
      · exact le_refl _
      · exact List.rel_of_sorted_cons hs q hq
    · rw [List.find?_cons_of_neg _ (by simpa using ha)] at hp
      obtain ⟨hple, hmax⟩ := ih hs.of_cons p hp
      refine ⟨hple, fun q hq hqle => ?_⟩
      rcases List.mem_cons.1 hq with rfl | hq
      · exact absurd hqle ha
      · exact hmax q hq hqle

/-- Applying `findIdx` never grows the index when the predicate weakens pointwise. -/
theorem findIdx_le_of_imp {α : Type} (p q : α → Bool)
    (hpq : ∀ x, p x = true → q x = true) :
    ∀ l : List α, l.findIdx q ≤ l.findIdx p := by
  intro l
  induction l with
  | nil => exact le_refl _
  | cons a l ih =>
    rw [List.findIdx_cons, List.findIdx_cons]
    by_cases hp : p a = true
    · simp [hp, hpq a hp]
    · by_cases hq : q a = true
      · simp [hq]
      · simp only [hp, hq, cond_false]
        omega

/-- Lookup `find?` returns the element sitting at index `findIdx`. -/
theorem find?_eq_get_findIdx {α : Type} (p : α → Bool) :
    ∀ l : List α, l.find? p = l[l.findIdx p]?
  | [] => rfl
  | a :: l => by
    rw [List.find?_cons, List.findIdx_cons]
    by_cases hp : p a = true
    · simp [hp]
    · simp [hp, find?_eq_get_findIdx p l]

/-- The resolved letter grade is the letter sitting at the resolved rank. -/
theorem resolve_letter_grade_eq_letter_at (grade_scale : List (String × ℚ))
    (total_score : ℚ) :
    resolve_letter_grade grade_scale total_score
      = letter_at grade_scale (grade_rank grade_scale total_score) := by
  unfold resolve_letter_grade letter_at grade_rank
  by_cases hgs : grade_scale = []
  · subst hgs; rfl
  · rw [if_neg hgs, find?_eq_get_findIdx]

/-- Insertion by `orderedInsert` with `adjGE` goes in front of equal keys, so on a
fixed-key filter it is a cons exactly when the key matches. -/
theorem filter_orderedInsert_adj (q : ℚ) (a : AssignmentScore) :
    ∀ l : List AssignmentScore,
      (l.orderedInsert adjGE a).filter (fun x => decide (x.adjusted_score = q))
        = if a.adjusted_score = q
          then a :: l.filter (fun x => decide (x.adjusted_score = q))
          else l.filter (fun x => decide (x.adjusted_score = q))
  | [] => by
    by_cases haq : a.adjusted_score = q <;>
      simp [List.orderedInsert, List.filter_cons, haq]
  | b :: l => by
    rw [List.orderedInsert]
    by_cases hab : adjGE a b
    · rw [if_pos hab]
      by_cases haq : a.adjusted_score = q <;>
        simp [List.filter_cons, haq]
    · rw [if_neg hab]
      have hba : a.adjusted_score < b.adjusted_score := not_le.1 hab
      have ih := filter_orderedInsert_adj q a l
      by_cases haq : a.adjusted_score = q
      · have hbq : ¬ b.adjusted_score = q := by
          rw [← haq]; exact ne_of_gt hba
        simp [List.filter_cons, hbq, haq, ih]
      · simp [List.filter_cons, haq, ih]

/-- Stability of the assignment sort: the sub-sequence of assignments with a
fixed adjusted score is unchanged, i.e. ties keep original insertion order. -/
theorem filter_sortAssignments (q : ℚ) :
    ∀ l : List AssignmentScore,
      (sortAssignments l).filter (fun x => decide (x.adjusted_score = q))
        = l.filter (fun x => decide (x.adjusted_score = q))
  | [] => rfl
  | a :: l => by
    show ((sortAssignments l).orderedInsert adjGE a).filter _ = _
    rw [filter_orderedInsert_adj, filter_sortAssignments q l]
    by_cases haq : a.adjusted_score = q <;>
      simp [List.filter_cons, haq]

/-!
## Claim theorems
-/

/-- C1: for `calculate_late_penalty` with both timestamps present and
parseable and `rate`, `max_penalty` fractions in `[0,1]`: `days_late` is the
floor of the elapsed `(submitted - due)` interval in whole days clamped to a
minimum of `0`, the penalty fraction is `min max_penalty (rate * days_late)`
and always lies within `[0, max_penalty]`; in particular a submission on or
before the due date gives `days_late = 0` and penalty `0`. -/
theorem calculate_late_penalty_spec (submitted due : Int)
    (rate max_penalty : ℚ) (hr0 : 0 ≤ rate) (_hr1 : rate ≤ 1)
    (hm0 : 0 ≤ max_penalty) (_hm1 : max_penalty ≤ 1) :
    (calculate_late_penalty (some submitted) (some due) rate max_penalty).1.days_late
        = max 0 ((submitted - due).fdiv secondsPerDay)
    ∧ (calculate_late_penalty (some submitted) (some due) rate max_penalty).1.penalty
        = min max_penalty (rate *
            ((calculate_late_penalty (some submitted) (some due) rate max_penalty).1.days_late : ℚ))
    ∧ 0 ≤ (calculate_late_penalty (some submitted) (some due) rate max_penalty).1.penalty
    ∧ (calculate_late_penalty (some submitted) (some due) rate max_penalty).1.penalty
        ≤ max_penalty
    ∧ (submitted ≤ due →
        (calculate_late_penalty (some submitted) (some due) rate max_penalty).1.days_late = 0
        ∧ (calculate_late_penalty (some submitted) (some due) rate max_penalty).1.penalty = 0) := by
  have hdnn : (0 : Int) ≤ max 0 ((submitted - due).fdiv secondsPerDay) :=
    le_max_left _ _
  refine ⟨rfl, rfl, ?_, min_le_left _ _, ?_⟩
  · exact le_min hm0 (mul_nonneg hr0 (by exact_mod_cast hdnn))
  · intro h
    have hsub : submitted - due ≤ 0 := sub_nonpos.2 h
    have hfd : (submitted - due).fdiv secondsPerDay ≤ 0 := by
      rw [Int.fdiv_eq_ediv _ (by norm_num [secondsPerDay])]
      calc (submitted - due) / secondsPerDay ≤ 0 / secondsPerDay :=
            Int.ediv_le_ediv (by norm_num [secondsPerDay]) hsub
        _ = 0 := Int.zero_ediv _
    have hmax : max 0 ((submitted - due).fdiv secondsPerDay) = 0 := max_eq_left hfd
    constructor
    · exact hmax
    · show min max_penalty (rate * ((max 0 ((submitted - due).fdiv secondsPerDay) : Int) : ℚ)) = 0
      rw [hmax]
      simp [min_eq_right hm0]

/-- C1 witness: a concrete three-days-late submission. -/
theorem calculate_late_penalty_spec_witness :
    (calculate_late_penalty (some 1209600) (some 950400) (1/10) (1/2)).1.days_late
        = max 0 (((1209600 : Int) - 950400).fdiv secondsPerDay)
    ∧ (calculate_late_penalty (some 1209600) (some 950400) (1/10) (1/2)).1.penalty
        = min (1/2) ((1/10) *
            ((calculate_late_penalty (some 1209600) (some 950400) (1/10) (1/2)).1.days_late : ℚ))
    ∧ 0 ≤ (calculate_late_penalty (some 1209600) (some 950400) (1/10) (1/2)).1.penalty
    ∧ (calculate_late_penalty (some 1209600) (some 950400) (1/10) (1/2)).1.penalty ≤ 1/2
    ∧ ((1209600 : Int) ≤ 950400 →
        (calculate_late_penalty (some 1209600) (some 950400) (1/10) (1/2)).1.days_late = 0
        ∧ (calculate_late_penalty (some 1209600) (some 950400) (1/10) (1/2)).1.penalty = 0) :=
  calculate_late_penalty_spec 1209600 950400 (1/10) (1/2)
    (by norm_num) (by norm_num) (by norm_num) (by norm_num)

/-- C5: when either timestamp is absent/empty, `calculate_late_penalty` does
not fail: it emits the missing-date warning signal and returns
`days_late = 0`, penalty `0`. -/
theorem calculate_late_penalty_missing_date (submitted_at due_date : Option Int)
    (rate max_penalty : ℚ) (h : submitted_at = none ∨ due_date = none) :
    calculate_late_penalty submitted_at due_date rate max_penalty = (⟨0, 0⟩, true) := by
  rcases h with h | h <;> subst h
  · cases due_date <;> rfl
  · cases submitted_at <;> rfl

/-- C5 witness: absent submission timestamp. -/
theorem calculate_late_penalty_missing_date_witness :
    calculate_late_penalty none (some 950400) (1/10) (1/2) = (⟨0, 0⟩, true) :=
  calculate_late_penalty_missing_date none (some 950400) (1/10) (1/2) (Or.inl rfl)

/-- C7: a student record that is falsy or lacks the top-level `scores` section
makes `calculate_grade` fail with the `ValueError`; no report is produced. -/
theorem calculate_grade_invalid_grades (grades : Option Grades) (policy : Policy)
    (h : grades = none ∨ grades = some ⟨none⟩) :
    calculate_grade grades policy = Except.error "Invalid grades data"
    ∧ ∀ r : Report, calculate_grade grades policy ≠ Except.ok r := by
  have he : calculate_grade grades policy = Except.error "Invalid grades data" := by
    rcases h with h | h <;> subst h <;> rfl
  exact ⟨he, fun r hr => by rw [he] at hr; exact Except.noConfusion hr⟩

/-- C7 witness: a record whose `scores` key is absent. -/
theorem calculate_grade_invalid_grades_witness :
    calculate_grade (some ⟨none⟩)
        ⟨none, none, none, none, none, [], [], [], ⟨1/10, 1/2⟩, 0, []⟩
      = Except.error "Invalid grades data"
    ∧ ∀ r : Report, calculate_grade (some ⟨none⟩)
        ⟨none, none, none, none, none, [], [], [], ⟨1/10, 1/2⟩, 0, []⟩
      ≠ Except.ok r :=
  calculate_grade_invalid_grades (some ⟨none⟩)
    ⟨none, none, none, none, none, [], [], [], ⟨1/10, 1/2⟩, 0, []⟩ (Or.inr rfl)

/-- C9: when `drops` is at least the number of assignments, zero assignments
remain after dropping and the aggregation fails (the division on line 73 has
no guarded error branch; the empty average is undefined). -/
theorem process_assignment_category_empty (scores : List (String × Submission))
    (due_dates : List (String × Int)) (weight rate max_penalty : ℚ)
    (drops : Nat) (h : scores.length ≤ drops) :
    process_assignment_category scores due_dates weight rate max_penalty drops
      = none := by
  have hlen : (make_assignments scores due_dates rate max_penalty).length
      = scores.length := by
    simp [make_assignments]
  unfold process_assignment_category
  rcases Nat.eq_zero_or_pos drops with h0 | hpos
  · subst h0
    have hs0 : scores.length = 0 := Nat.le_zero.1 h
    simp [hlen, hs0]
  · have htake : (make_assignments scores due_dates rate max_penalty).length - drops
        = 0 := by omega
    simp [hpos, htake]

/-- C9 witness: one quiz, two drops. -/
theorem process_assignment_category_empty_witness :
    process_assignment_category [("Q1", ⟨90, some 0⟩)] [] (1/5) (1/10) (1/2) 2
      = none :=
  process_assignment_category_empty [("Q1", ⟨90, some 0⟩)] [] (1/5) (1/10) (1/2) 2
    (by norm_num)

/-- C3: the resulting letter grade is the first letter, iterating the grade
scale sorted by threshold descending, whose threshold is at most the total
score (equivalently: a qualifying letter of maximal threshold); if no entry
qualifies, or the scale is absent/empty, the letter is `"F"`.  In particular
the scale `A:90, B:80, C:70, F:0` at total `85` yields `"B"`. -/
theorem resolve_letter_grade_spec (grade_scale : List (String × ℚ))
    (total_score : ℚ) :
    ((∀ p ∈ grade_scale, total_score < p.2) →
        resolve_letter_grade grade_scale total_score = "F")
    ∧ (∀ p0 ∈ grade_scale, p0.2 ≤ total_score →
        ∃ t : ℚ, (resolve_letter_grade grade_scale total_score, t) ∈ grade_scale
          ∧ t ≤ total_score
          ∧ ∀ q ∈ grade_scale, q.2 ≤ total_score → q.2 ≤ t)
    ∧ resolve_letter_grade [("A", 90), ("B", 80), ("C", 70), ("F", 0)] 85 = "B" := by
  refine ⟨?_, ?_, by decide⟩
  · intro h
    unfold resolve_letter_grade
    by_cases hgs : grade_scale = []
    · rw [if_pos hgs]
    · rw [if_neg hgs]
      have hnone : (sortScale grade_scale).find?
          (fun p => decide (p.2 ≤ total_score)) = none := by
        rw [List.find?_eq_none]
        intro x hx
        have hxg : x ∈ grade_scale := (List.mem_insertionSort scaleGE).1 hx
        simpa using not_le.2 (h x hxg)
      rw [hnone]
  · intro p0 hp0 hp0le
    have hgs : grade_scale ≠ [] := by
      intro hnil; rw [hnil] at hp0; exact List.not_mem_nil p0 hp0
    have hsome : ((sortScale grade_scale).find?
        (fun p => decide (p.2 ≤ total_score))).isSome = true := by
      rw [List.find?_isSome]
      exact ⟨p0, (List.mem_insertionSort scaleGE).2 hp0, by simpa using hp0le⟩
    obtain ⟨p, hp⟩ := Option.isSome_iff_exists.1 hsome
    have hres : resolve_letter_grade grade_scale total_score = p.1 := by
      unfold resolve_letter_grade
      rw [if_neg hgs, hp]
    have hmem : p ∈ grade_scale :=
      (List.mem_insertionSort scaleGE).1 (List.mem_of_find?_eq_some hp)
    obtain ⟨hple, hmax⟩ := find?_sorted_scale_max total_score (sortScale grade_scale)
      (List.sorted_insertionSort scaleGE grade_scale) p hp
    refine ⟨p.2, ?_, hple, ?_⟩
    · rw [hres]; exact hmem
    · intro q hq hqle
      exact hmax q ((List.mem_insertionSort scaleGE).2 hq) hqle

/-- C3 witness: the concrete scale `A:90, B:80, C:70, F:0` at total `85`
resolves to `"B"`, a qualifying letter of maximal threshold. -/
theorem resolve_letter_grade_spec_witness :
    (∃ t : ℚ,
        (resolve_letter_grade [("A", 90), ("B", 80), ("C", 70), ("F", 0)] 85, t)
            ∈ [("A", (90 : ℚ)), ("B", 80), ("C", 70), ("F", 0)]
          ∧ t ≤ 85
          ∧ ∀ q ∈ [("A", (90 : ℚ)), ("B", 80), ("C", 70), ("F", 0)],
              q.2 ≤ 85 → q.2 ≤ t)
    ∧ resolve_letter_grade [("A", 90), ("B", 80), ("C", 70), ("F", 0)] 85 = "B" :=
  ⟨(resolve_letter_grade_spec [("A", 90), ("B", 80), ("C", 70), ("F", 0)] 85).2.1
      ("B", 80) (by decide) (by norm_num),
    (resolve_letter_grade_spec [("A", 90), ("B", 80), ("C", 70), ("F", 0)] 85).2.2⟩

/-- A well-formed (monotonically ordered) grade scale: thresholds strictly
descending in scale order. -/
def WellFormedScale (grade_scale : List (String × ℚ)) : Prop :=
  grade_scale.Pairwise (fun a b => b.2 < a.2)

instance (grade_scale : List (String × ℚ)) :
    Decidable (WellFormedScale grade_scale) :=
  inferInstanceAs (Decidable (List.Pairwise _ _))

/-- C6: letter-grade resolution is monotonic.  For a fixed well-formed scale
and total scores `s1 ≤ s2`, the rank at which the resolution loop stops for
`s2` (smaller = higher grade, falling through to `"F"` = lowest) never exceeds
the rank for `s1`, and each resolved letter is the letter at its rank. -/
theorem grade_rank_monotone (grade_scale : List (String × ℚ))
    (_hwf : WellFormedScale grade_scale) (s1 s2 : ℚ) (h : s1 ≤ s2) :
    grade_rank grade_scale s2 ≤ grade_rank grade_scale s1
    ∧ resolve_letter_grade grade_scale s1
        = letter_at grade_scale (grade_rank grade_scale s1)
    ∧ resolve_letter_grade grade_scale s2
        = letter_at grade_scale (grade_rank grade_scale s2) := by
  refine ⟨?_, resolve_letter_grade_eq_letter_at _ _,
    resolve_letter_grade_eq_letter_at _ _⟩
  unfold grade_rank
  refine findIdx_le_of_imp _ _ (fun x hx => ?_) _
  have hx1 : x.2 ≤ s1 := of_decide_eq_true hx
  exact decide_eq_true (le_trans hx1 h)

/-- C6 witness: the concrete scale `A:90, B:80, C:70, F:0` with totals
`75 ≤ 85`. -/
theorem grade_rank_monotone_witness :
    grade_rank [("A", 90), ("B", 80), ("C", 70), ("F", 0)] 85
        ≤ grade_rank [("A", 90), ("B", 80), ("C", 70), ("F", 0)] 75
    ∧ resolve_letter_grade [("A", 90), ("B", 80), ("C", 70), ("F", 0)] 75
        = letter_at [("A", 90), ("B", 80), ("C", 70), ("F", 0)]
            (grade_rank [("A", 90), ("B", 80), ("C", 70), ("F", 0)] 75)
    ∧ resolve_letter_grade [("A", 90), ("B", 80), ("C", 70), ("F", 0)] 85
        = letter_at [("A", 90), ("B", 80), ("C", 70), ("F", 0)]
            (grade_rank [("A", 90), ("B", 80), ("C", 70), ("F", 0)] 85) :=
  grade_rank_monotone [("A", 90), ("B", 80), ("C", 70), ("F", 0)]
    (by decide) 75 85 (by norm_num)

/-- C2: for a category of `n` assignments with `0 < drops < n`, the surviving
set has exactly `n - drops` entries; the survivors are the initial segment of
the stable descending sort (every dropped assignment scores no higher than any
survivor, and ties keep original insertion order: the survivors' ties followed
by the dropped ties give back the tie group in input order); the weighted
score is the survivors' average adjusted score times the weight. -/
theorem process_assignment_category_drop_spec
    (scores : List (String × Submission)) (due_dates : List (String × Int))
    (weight rate max_penalty : ℚ) (drops : Nat)
    (h0 : 0 < drops) (h1 : drops < scores.length) :
    ∃ survivors : List AssignmentScore,
      process_assignment_category scores due_dates weight rate max_penalty drops
          = some
            ((survivors.map fun a => a.adjusted_score).sum
                / (survivors.length : ℚ) * weight,
              survivors)
      ∧ survivors.length = scores.length - drops
      ∧ survivors
          = (sortAssignments
              (make_assignments scores due_dates rate max_penalty)).take
              (scores.length - drops)
      ∧ (∀ a ∈ survivors,
          ∀ b ∈ (sortAssignments
              (make_assignments scores due_dates rate max_penalty)).drop
              (scores.length - drops),
            b.adjusted_score ≤ a.adjusted_score)
      ∧ ∀ q : ℚ,
          survivors.filter (fun a => decide (a.adjusted_score = q))
            ++ ((sortAssignments
                (make_assignments scores due_dates rate max_penalty)).drop
                (scores.length - drops)).filter
                (fun a => decide (a.adjusted_score = q))
          = (make_assignments scores due_dates rate max_penalty).filter
              (fun a => decide (a.adjusted_score = q)) := by
  have hlen : (make_assignments scores due_dates rate max_penalty).length
      = scores.length := by simp [make_assignments]
  have hslen : (sortAssignments
      (make_assignments scores due_dates rate max_penalty)).length
      = scores.length := by
    rw [sortAssignments, List.length_insertionSort, hlen]
  refine ⟨(sortAssignments
      (make_assignments scores due_dates rate max_penalty)).take
      (scores.length - drops), ?_, ?_, rfl, ?_, ?_⟩
  · have hne : ¬ ((sortAssignments
        (make_assignments scores due_dates rate max_penalty)).take
        (scores.length - drops)).length = 0 := by
      rw [List.length_take, hslen]
      omega
    unfold process_assignment_category
    dsimp only
    rw [hlen, if_pos h0, if_neg hne]
  · rw [List.length_take, hslen]
    omega
  · intro a ha b hb
    exact (List.sorted_insertionSort adjGE
      (make_assignments scores due_dates rate max_penalty)).rel_of_mem_take_of_mem_drop
      ha hb
  · intro q
    rw [← List.filter_append, List.take_append_drop]
    exact filter_sortAssignments q _

/-- C2 witness: quizzes `Q1:90, Q2:40, Q3:100`, one drop, weight `1/5`:
`Q2` is dropped and the weighted score is `avg(100, 90) / 5 = 19`. -/
theorem process_assignment_category_drop_spec_witness :
    ∃ survivors : List AssignmentScore,
      process_assignment_category
          [("Q1", ⟨90, some 0⟩), ("Q2", ⟨40, some 0⟩), ("Q3", ⟨100, some 0⟩)]
          [] (1/5) (1/10) (1/2) 1
          = some
            ((survivors.map fun a => a.adjusted_score).sum
                / (survivors.length : ℚ) * (1/5),
              survivors)
      ∧ survivors.length
          = [("Q1", (⟨90, some 0⟩ : Submission)), ("Q2", ⟨40, some 0⟩),
              ("Q3", ⟨100, some 0⟩)].length - 1
      ∧ survivors
          = (sortAssignments
              (make_assignments
                [("Q1", ⟨90, some 0⟩), ("Q2", ⟨40, some 0⟩), ("Q3", ⟨100, some 0⟩)]
                [] (1/10) (1/2))).take
              ([("Q1", (⟨90, some 0⟩ : Submission)), ("Q2", ⟨40, some 0⟩),
                ("Q3", ⟨100, some 0⟩)].length - 1)
      ∧ (∀ a ∈ survivors,
          ∀ b ∈ (sortAssignments
              (make_assignments
                [("Q1", ⟨90, some 0⟩), ("Q2", ⟨40, some 0⟩), ("Q3", ⟨100, some 0⟩)]
                [] (1/10) (1/2))).drop
              ([("Q1", (⟨90, some 0⟩ : Submission)), ("Q2", ⟨40, some 0⟩),
                ("Q3", ⟨100, some 0⟩)].length - 1),
            b.adjusted_score ≤ a.adjusted_score)
      ∧ ∀ q : ℚ,
          survivors.filter (fun a => decide (a.adjusted_score = q))
            ++ ((sortAssignments
                (make_assignments
                  [("Q1", ⟨90, some 0⟩), ("Q2", ⟨40, some 0⟩), ("Q3", ⟨100, some 0⟩)]
                  [] (1/10) (1/2))).drop
                ([("Q1", (⟨90, some 0⟩ : Submission)), ("Q2", ⟨40, some 0⟩),
                  ("Q3", ⟨100, some 0⟩)].length - 1)).filter
                (fun a => decide (a.adjusted_score = q))
          = (make_assignments
              [("Q1", ⟨90, some 0⟩), ("Q2", ⟨40, some 0⟩), ("Q3", ⟨100, some 0⟩)]
              [] (1/10) (1/2)).filter
              (fun a => decide (a.adjusted_score = q)) :=
  process_assignment_category_drop_spec
    [("Q1", ⟨90, some 0⟩), ("Q2", ⟨40, some 0⟩), ("Q3", ⟨100, some 0⟩)]
    [] (1/5) (1/10) (1/2) 1 (by norm_num) (by norm_num)

/-- The penalty fraction is nonnegative whenever `rate` and `max_penalty`
are. -/
theorem penalty_nonneg (submitted_at due_date : Option Int)
    (rate max_penalty : ℚ) (hr : 0 ≤ rate) (hm : 0 ≤ max_penalty) :
    0 ≤ (calculate_late_penalty submitted_at due_date rate max_penalty).1.penalty := by
  cases submitted_at with
  | none => cases due_date <;> exact le_refl 0
  | some s =>
    cases due_date with
    | none => exact le_refl 0
    | some d =>
      show 0 ≤ min max_penalty (rate * _)
      exact le_min hm (mul_nonneg hr (by exact_mod_cast le_max_left 0 _))

/-- Every post-drop row comes from the per-assignment loop. -/
theorem mem_make_assignments_of_mem_rows
    (scores : List (String × Submission)) (due_dates : List (String × Int))
    (weight rate max_penalty : ℚ) (drops : Nat) (ws : ℚ)
    (rows : List AssignmentScore)
    (h : process_assignment_category scores due_dates weight rate max_penalty
        drops = some (ws, rows)) :
    ∀ a ∈ rows, a ∈ make_assignments scores due_dates rate max_penalty := by
  intro a ha
  unfold process_assignment_category at h
  dsimp only at h
  by_cases hd : 0 < drops
  · rw [if_pos hd] at h
    split at h
    · simp at h
    · rw [Option.some.injEq, Prod.mk.injEq] at h
      obtain ⟨-, hrows⟩ := h
      subst hrows
      exact (List.mem_insertionSort adjGE).1 (List.mem_of_mem_take ha)
  · rw [if_neg hd] at h
    split at h
    · simp at h
    · rw [Option.some.injEq, Prod.mk.injEq] at h
      obtain ⟨-, hrows⟩ := h
      subst hrows
      exact ha

/-- C8 counterexample: a negative original score (`-1`, submitted one day
late, penalty `1/10`) yields `adjusted_score = -9/10 > -1 = original_score`,
so "adjusted_score ≤ original_score always" fails as stated. -/
theorem adjusted_le_original_counterexample :
    process_assignment_category [("hw1", ⟨-1, some 86400⟩)] [("hw1", 0)]
        1 (1/10) (1/2) 0
        = some (-(9/10), [⟨"hw1", -1, -(9/10), 1⟩])
      ∧ ¬ ((⟨"hw1", -1, -(9/10), 1⟩ : AssignmentScore).adjusted_score
          ≤ (⟨"hw1", -1, -(9/10), 1⟩ : AssignmentScore).original_score) := by
  constructor
  · have hma : make_assignments [("hw1", ⟨-1, some 86400⟩)] [("hw1", 0)]
        (1/10) (1/2) = [⟨"hw1", -1, -(9/10), 1⟩] := by
      have hpen : calculate_late_penalty (some 86400) (some 0) (1/10) (1/2)
          = (⟨1, 1/10⟩, false) := by
        unfold calculate_late_penalty
        dsimp only
        rw [show ((86400 : Int) - 0).fdiv secondsPerDay = 1 by decide]
        norm_num
      simp [make_assignments, List.lookup, hpen, -one_div]
      norm_num
    unfold process_assignment_category
    dsimp only
    rw [hma]
    norm_num
  · show ¬ (-(9/10 : ℚ) ≤ -1)
    norm_num

/-- C8 amended: for every `AssignmentScore` produced during aggregation from a
nonnegative original score, with nonnegative `rate` and `max_penalty` (so the
penalty fraction is nonnegative), `adjusted_score ≤ original_score`. -/
theorem adjusted_le_original (scores : List (String × Submission))
    (due_dates : List (String × Int)) (weight rate max_penalty : ℚ)
    (drops : Nat) (ws : ℚ) (rows : List AssignmentScore)
    (hs : ∀ p ∈ scores, 0 ≤ p.2.score) (hr : 0 ≤ rate) (hm : 0 ≤ max_penalty)
    (h : process_assignment_category scores due_dates weight rate max_penalty
        drops = some (ws, rows)) :
    ∀ a ∈ rows, a.adjusted_score ≤ a.original_score := by
  intro a ha
  have hmem := mem_make_assignments_of_mem_rows scores due_dates weight rate
    max_penalty drops ws rows h a ha
  obtain ⟨p, hp, rfl⟩ := List.mem_map.1 hmem
  show p.2.score * (1 - _) ≤ p.2.score
  have h0 : 0 ≤ p.2.score := hs p hp
  have hpen : 0 ≤ (calculate_late_penalty p.2.submitted_at
      (due_dates.lookup p.1) rate max_penalty).1.penalty :=
    penalty_nonneg _ _ _ _ hr hm
  calc p.2.score * (1 - (calculate_late_penalty p.2.submitted_at
        (due_dates.lookup p.1) rate max_penalty).1.penalty)
      ≤ p.2.score * 1 := mul_le_mul_of_nonneg_left (by linarith) h0
    _ = p.2.score := mul_one _

/-- C8 amended witness: a nonnegative-score category evaluates with
`adjusted_score ≤ original_score` on its row. -/
theorem adjusted_le_original_witness :
    (⟨"Q1", 90, 90, 0⟩ : AssignmentScore).adjusted_score
      ≤ (⟨"Q1", 90, 90, 0⟩ : AssignmentScore).original_score := by
  have heval : process_assignment_category [("Q1", ⟨90, some 0⟩)] [] 1
      (1/10) (1/2) 0 = some (90, [⟨"Q1", 90, 90, 0⟩]) := by
    have hma : make_assignments [("Q1", ⟨90, some 0⟩)] [] (1/10) (1/2)
        = [⟨"Q1", 90, 90, 0⟩] := by
      simp [make_assignments, List.lookup, calculate_late_penalty, -one_div]
    unfold process_assignment_category
    dsimp only
    rw [hma]
    norm_num
  exact adjusted_le_original [("Q1", ⟨90, some 0⟩)] [] 1 (1/10) (1/2) 0 90
    [⟨"Q1", 90, 90, 0⟩] (by decide) (by norm_num) (by norm_num) heval
    ⟨"Q1", 90, 90, 0⟩ (by simp)

/-- The project stage produces either no warning or exactly the fixed missing
project warning. -/
theorem project_stage_warn_shape (scores : Scores) (policy : Policy) :
    (project_stage scores policy).2 = none
    ∨ (project_stage scores policy).2 = some "Missing project data" := by
  unfold project_stage
  cases scores.project with
  | none => cases policy.weights_project <;> simp
  | some proj =>
    cases policy.weights_project with
    | none => simp
    | some w => by_cases h0 : w = 0 <;> simp [h0]

/-- A category stage that returns produces either no warning or exactly its
fixed warning string. -/
theorem category_stage_ok_warn (warn : String)
    (cat_scores : List (String × Submission)) (due_dates : List (String × Int))
    (weight : Option ℚ) (lp : LatePenalty) (drops : Nat) (r : ℚ × Option String)
    (h : category_stage warn cat_scores due_dates weight lp drops
        = Except.ok r) :
    r.2 = none ∨ r.2 = some warn := by
  cases weight with
  | none =>
    unfold category_stage at h
    dsimp only at h
    cases h; simp
  | some w =>
    unfold category_stage at h
    dsimp only at h
    split at h
    · cases h; simp
    · split at h
      · cases h; simp
      · exact absurd h (by simp)

/-- Unfolding a successful `calculate_grade` run into its stage results. -/
theorem calculate_grade_ok_elim (g : Grades) (scores : Scores)
    (policy : Policy) (r : Report) (hg : g.scores = some scores)
    (h : calculate_grade (some g) policy = Except.ok r) :
    ∃ quiz hw refls : ℚ × Option String,
      category_stage "Missing quizzes data" scores.quizzes
          policy.due_dates_quizzes policy.weights_quizzes policy.late_penalty
          policy.quiz_drops = Except.ok quiz
      ∧ category_stage "Missing homework data" scores.homework
          policy.due_dates_homework policy.weights_homework policy.late_penalty
          0 = Except.ok hw
      ∧ category_stage "Missing reflections data" scores.reflections
          policy.due_dates_reflections policy.weights_reflections
          policy.late_penalty 0 = Except.ok refls
      ∧ r = { total_score := (project_stage scores policy).1 + quiz.1 + hw.1
                + refls.1
              letter_grade := resolve_letter_grade policy.grade_scale
                ((project_stage scores policy).1 + quiz.1 + hw.1 + refls.1)
              warnings := (project_stage scores policy).2.toList
                ++ quiz.2.toList ++ hw.2.toList ++ refls.2.toList } := by
  unfold calculate_grade at h
  dsimp only at h
  rw [hg] at h
  dsimp only at h
  cases hq : category_stage "Missing quizzes data" scores.quizzes
      policy.due_dates_quizzes policy.weights_quizzes policy.late_penalty
      policy.quiz_drops with
  | error e => rw [hq] at h; exact absurd h (by simp)
  | ok quiz =>
    rw [hq] at h
    dsimp only at h
    cases hh : category_stage "Missing homework data" scores.homework
        policy.due_dates_homework policy.weights_homework policy.late_penalty
        0 with
    | error e => rw [hh] at h; exact absurd h (by simp)
    | ok hw =>
      rw [hh] at h
      dsimp only at h
      cases hrf : category_stage "Missing reflections data" scores.reflections
          policy.due_dates_reflections policy.weights_reflections
          policy.late_penalty 0 with
      | error e => rw [hrf] at h; exact absurd h (by simp)
      | ok refls =>
        rw [hrf] at h
        dsimp only at h
        cases h
        exact ⟨quiz, hw, refls, rfl, rfl, rfl, rfl⟩

/-- An optional warning of known shape contributes a sublist of the
corresponding singleton. -/
theorem toList_sublist {s : String} {o : Option String}
    (h : o = none ∨ o = some s) : o.toList.Sublist [s] := by
  rcases h with h | h <;> subst h <;> simp

/-- A string different from the stage warning never sits in the stage's
warning contribution. -/
theorem not_mem_toList_of_shape {s t : String} {o : Option String}
    (hst : s ≠ t) (h : o = none ∨ o = some t) : s ∉ o.toList := by
  rcases h with h | h <;> subst h <;> simp [hst]

/-- C10: on every run on which the pipeline completes, the warnings list is a
subsequence of the fixed sequence project, quizzes, homework, reflections:
each stage appends at most its own fixed warning string, in stage order, and
nothing else is ever appended. -/
theorem calculate_grade_warnings_sublist (grades : Option Grades)
    (policy : Policy) (r : Report)
    (h : calculate_grade grades policy = Except.ok r) :
    r.warnings.Sublist ["Missing project data", "Missing quizzes data",
      "Missing homework data", "Missing reflections data"] := by
  cases grades with
  | none => exact absurd h (by simp [calculate_grade])
  | some g =>
    cases hg : g.scores with
    | none =>
      refine absurd h ?_
      unfold calculate_grade
      dsimp only
      rw [hg]
      simp
    | some scores =>
      obtain ⟨quiz, hw, refls, hq, hh, hrf, rfl⟩ :=
        calculate_grade_ok_elim g scores policy r hg h
      have h1 := toList_sublist (project_stage_warn_shape scores policy)
      have h2 := toList_sublist (category_stage_ok_warn _ _ _ _ _ _ _ hq)
      have h3 := toList_sublist (category_stage_ok_warn _ _ _ _ _ _ _ hh)
      have h4 := toList_sublist (category_stage_ok_warn _ _ _ _ _ _ _ hrf)
      exact ((h1.append h2).append h3).append h4

/-- C10 witness: an all-missing run completes with exactly the four fixed
warnings in stage order (trivially a subsequence of themselves). -/
theorem calculate_grade_warnings_sublist_witness :
    (Report.mk 0 "F" ["Missing project data", "Missing quizzes data",
      "Missing homework data", "Missing reflections data"]).warnings.Sublist
      ["Missing project data", "Missing quizzes data", "Missing homework data",
        "Missing reflections data"] := by
  have heval : calculate_grade (some ⟨some ⟨none, [], [], []⟩⟩)
      ⟨none, none, none, none, none, [], [], [], ⟨1/10, 1/2⟩, 0, []⟩
      = Except.ok (Report.mk 0 "F" ["Missing project data",
          "Missing quizzes data", "Missing homework data",
          "Missing reflections data"]) := by
    unfold calculate_grade
    dsimp only
    unfold category_stage project_stage
    dsimp only
    unfold resolve_letter_grade
    norm_num
  exact calculate_grade_warnings_sublist (some ⟨some ⟨none, [], [], []⟩⟩)
    ⟨none, none, none, none, none, [], [], [], ⟨1/10, 1/2⟩, 0, []⟩
    (Report.mk 0 "F" ["Missing project data", "Missing quizzes data",
      "Missing homework data", "Missing reflections data"]) heval

/-- C4 counterexample: project score present and project weight present but
equal to `0` (falsy in the Python guard): the stage is skipped and the
"Missing project data" warning is emitted even though both are present,
contradicting "executed whenever both are present". -/
theorem project_stage_present_counterexample :
    (Scores.mk (some ⟨100, some 0⟩) [] [] []).project ≠ none
    ∧ (Policy.mk (some 0) none none none (some 0) [] [] [] ⟨1/10, 1/2⟩ 0
        []).weights_project ≠ none
    ∧ project_stage (Scores.mk (some ⟨100, some 0⟩) [] [] [])
        (Policy.mk (some 0) none none none (some 0) [] [] [] ⟨1/10, 1/2⟩ 0 [])
        = (0, some "Missing project data")
    ∧ calculate_grade (some ⟨some (Scores.mk (some ⟨100, some 0⟩) [] [] [])⟩)
        (Policy.mk (some 0) none none none (some 0) [] [] [] ⟨1/10, 1/2⟩ 0 [])
        = Except.ok (Report.mk 0 "F" ["Missing project data",
            "Missing quizzes data", "Missing homework data",
            "Missing reflections data"]) := by
  refine ⟨by simp, by simp, rfl, ?_⟩
  unfold calculate_grade
  dsimp only
  unfold category_stage project_stage
  dsimp only
  unfold resolve_letter_grade
  norm_num

/-- C4 amended: the project stage is executed iff the project entry is present
and the project weight is present and nonzero; when executed its contribution
is `original_score * (1 - penalty_fraction) * weight` and no warning is
emitted; when the project entry is absent or the weight is absent or zero the
contribution is exactly `0`, and the "Missing project data" warning appears in
a completed report exactly when the stage was skipped. -/
theorem project_stage_spec (scores : Scores) (policy : Policy) :
    (∀ proj w, scores.project = some proj → policy.weights_project = some w →
        w ≠ 0 →
        project_stage scores policy
          = (proj.score * (1 - (calculate_late_penalty proj.submitted_at
              policy.due_dates_project policy.late_penalty.rate
              policy.late_penalty.max_penalty).1.penalty) * w, none))
    ∧ ((scores.project = none ∨ policy.weights_project = none
          ∨ policy.weights_project = some 0) →
        project_stage scores policy = (0, some "Missing project data"))
    ∧ ∀ (g : Grades) (r : Report), g.scores = some scores →
        calculate_grade (some g) policy = Except.ok r →
        ("Missing project data" ∈ r.warnings
          ↔ (project_stage scores policy).2 = some "Missing project data") := by
  refine ⟨?_, ?_, ?_⟩
  · intro proj w h1 h2 h3
    unfold project_stage
    rw [h1, h2]
    dsimp only
    rw [if_neg h3]
  · intro h
    unfold project_stage
    rcases h with h | h | h
    · rw [h]
    · rw [h]
      cases scores.project <;> rfl
    · rw [h]
      cases scores.project with
      | none => rfl
      | some proj => dsimp only; rw [if_pos rfl]
  · intro g r hg h
    obtain ⟨quiz, hw, refls, hq, hh, hrf, rfl⟩ :=
      calculate_grade_ok_elim g scores policy r hg h
    have hnq : "Missing project data" ∉ quiz.2.toList :=
      not_mem_toList_of_shape (by decide)
        (category_stage_ok_warn _ _ _ _ _ _ _ hq)
    have hnh : "Missing project data" ∉ hw.2.toList :=
      not_mem_toList_of_shape (by decide)
        (category_stage_ok_warn _ _ _ _ _ _ _ hh)
    have hnr : "Missing project data" ∉ refls.2.toList :=
      not_mem_toList_of_shape (by decide)
        (category_stage_ok_warn _ _ _ _ _ _ _ hrf)
    show "Missing project data" ∈ (project_stage scores policy).2.toList
        ++ quiz.2.toList ++ hw.2.toList ++ refls.2.toList ↔ _
    constructor
    · intro hmem
      rcases List.mem_append.1 hmem with hmem | hmem
      · rcases List.mem_append.1 hmem with hmem | hmem
        · rcases List.mem_append.1 hmem with hmem | hmem
          · rcases project_stage_warn_shape scores policy with hp | hp
            · rw [hp] at hmem
              simp at hmem
            · exact hp
          · exact absurd hmem hnq
        · exact absurd hmem hnh
      · exact absurd hmem hnr
    · intro hp
      rw [hp]
      simp

/-- C4 amended witness: both present with nonzero weight: the stage is
executed with contribution `score * (1 - penalty) * weight`. -/
theorem project_stage_spec_witness :
    project_stage (Scores.mk (some ⟨100, some 86400⟩) [] [] [])
        (Policy.mk (some (1/4)) none none none (some 0) [] [] [] ⟨1/10, 1/2⟩ 0
          [])
      = ((100 : ℚ) * (1 - (calculate_late_penalty (some 86400) (some 0)
          (1/10) (1/2)).1.penalty) * (1/4), none) :=
  (project_stage_spec (Scores.mk (some ⟨100, some 86400⟩) [] [] [])
      (Policy.mk (some (1/4)) none none none (some 0) [] [] [] ⟨1/10, 1/2⟩ 0
        [])).1
    ⟨100, some 86400⟩ (1/4) rfl rfl (by norm_num)

end CalculateGrades
